import Mathlib

/-!
Shallow embedding of `src/ExportVisibleFiles.py`, a Fusion-360 add-in script
that exports all visible components and bodies of the active design to
separate files (STEP / STL / IGES / SAT).

The host application's object model is embedded as plain data:
a `Component` carries its name, visibility flag and list of bodies; the
root component provides the flattened `allComponents` collection exactly as
the host hands it to the script.  Host side effects (export-manager calls,
message boxes, the folder dialog, the progress dialog) are recorded as an
event trace (`HEvent`), and host failures are injected through explicit
oracles: `failsAt i` says whether the export-manager `execute` call for the
loop item at index `i` raises, `failAt : Option Nat` says which host call
(if any) inside `CommandCreatedHandler.notify` raises, and the `Option`
fields of `CmdInputs` model `itemById` returning `None`.  Python's
`try/except` blocks are embedded by the `handle` combinator: the second
component of each `notify` result records whether an exception propagated
to the caller.
-/

/-- A body in the host's document model: `adsk.fusion.BRepBody` as the
script reads it (`name`, `isVisible`). -/
structure BRepBody where
  name : String
  isVisible : Bool
deriving DecidableEq, Repr

/-- A component in the host's document model: `adsk.fusion.Component` as the
script reads it (`name`, `isVisible`, `bRepBodies`). -/
structure Component where
  name : String
  isVisible : Bool
  bRepBodies : List BRepBody
deriving DecidableEq, Repr

/-- The root component, of which the script only reads the flattened
`allComponents` collection. -/
structure RootComp where
  allComponents : List Component
deriving DecidableEq, Repr

/-- An item collected by `get_visible_entities`: either a component or a
body (the Python list is heterogeneous). -/
inductive Entity where
  | comp (c : Component)
  | body (b : BRepBody)
deriving DecidableEq, Repr

/-- The name `entity.name` as read by `export_entity`. -/
def Entity.name : Entity → String
  | .comp c => c.name
  | .body b => b.name

/-- Function `get_visible_entities(root_comp, export_components, export_bodies)`,
lines 22-34: starts from an empty `visible_items` list; if
`export_components`, appends every visible component of
`root_comp.allComponents`; if `export_bodies`, then for every component
appends its visible bodies; returns the accumulated list.  The two `for`
loops are embedded as left folds that append to the accumulator, mirroring
`visible_items.append(...)`. -/
def get_visible_entities (root_comp : RootComp)
    (export_components export_bodies : Bool) : List Entity :=
  let v0 : List Entity := []
  let v1 :=
    if export_components then
      root_comp.allComponents.foldl
        (fun acc comp => if comp.isVisible then acc ++ [Entity.comp comp] else acc) v0
    else v0
  let v2 :=
    if export_bodies then
      root_comp.allComponents.foldl
        (fun acc comp =>
          comp.bRepBodies.foldl
            (fun acc2 body => if body.isVisible then acc2 ++ [Entity.body body] else acc2)
            acc)
        v1
    else v1
  v2

/-- The allow-list test of `sanitize_filename`, line 38:
`c.isalnum() or c in (' ', '.', '_', '-')`.  The host's `str.isalnum` is
Unicode-aware; the embedding uses the ASCII alphanumeric class, which is
what the claims about the sanitizer range over. -/
def allowedChar (c : Char) : Bool :=
  c.isAlphanum || c == ' ' || c == '.' || c == '_' || c == '-'

/-- Python whitespace as stripped by `str.rstrip()` with no argument
(restricted to the ASCII whitespace characters). -/
def pyIsSpace (c : Char) : Bool :=
  c == ' ' || c == '\t' || c == '\n' || c == '\r' ||
    c == Char.ofNat 11 || c == Char.ofNat 12

/-- Python `str.rstrip()` on a character list: drop trailing whitespace. -/
def pyRstrip (l : List Char) : List Char :=
  (l.reverse.dropWhile pyIsSpace).reverse

/-- Function `sanitize_filename(name)`, lines 36-38:
`"".join(c for c in name if c.isalnum() or c in (' ', '.', '_', '-')).rstrip()`. -/
def sanitize_filename (name : String) : String :=
  String.mk (pyRstrip (name.data.filter allowedChar))

/-- Function `get_file_extension(format_str)`, lines 40-46: a four-entry dictionary
lookup with default `'stp'`. -/
def get_file_extension (format_str : String) : String :=
  if format_str = "STEP" then "step"
  else if format_str = "STL" then "stl"
  else if format_str = "IGES" then "igs"
  else if format_str = "SAT" then "sat"
  else "stp"

/-- Python `os.path.join(folder, filename)` (posix semantics, as used on
line 51): an absolute second argument wins; otherwise a separator is
inserted unless the folder is empty or already ends in one. -/
def path_join (folder filename : String) : String :=
  if filename.data.head? = some '/' then filename
  else if folder = "" || folder.data.getLast? = some '/' then folder ++ filename
  else folder ++ "/" ++ filename

/-- The four host export-options objects `export_entity` can construct,
each carrying the arguments the script passes to the corresponding
`exportMgr.create...ExportOptions` call (lines 54-66). -/
inductive ExportOptions where
  | step (filepath : String) (c : Component)
  | iges (filepath : String) (c : Component)
  | sat (filepath : String) (c : Component)
  | stl (bodies : List BRepBody) (filepath : String)
deriving DecidableEq, Repr

/-- The file path handed to the export-options constructor. -/
def optionsPath : ExportOptions → String
  | .step p _ => p
  | .iges p _ => p
  | .sat p _ => p
  | .stl _ p => p

/-- Which of the four constructors an options value came from, as the
format tag it corresponds to. -/
def optionsKind : ExportOptions → String
  | .step _ _ => "STEP"
  | .iges _ _ => "IGES"
  | .sat _ _ => "SAT"
  | .stl _ _ => "STL"

/-- What a call to `export_entity` asks of the host after its dispatch:
either `exportMgr.execute(options)` (line 70) or an early return after
`ui.messageBox(...)` (lines 62-63 and 68-69). -/
inductive ExportAction where
  | execute (o : ExportOptions)
  | message (m : String)
deriving DecidableEq, Repr

/-- The message of line 62, with the f-string interpolation expanded. -/
def unsupportedMsg (fmt : String) : String :=
  "Unsupported format: " ++ fmt

/-- The message of line 68. -/
def bodiesOnlySTLMsg : String :=
  "Bodies can only be exported as STL"

/-- Function `export_entity(entity, folder, export_format)`, lines 48-70: builds the
file path from the sanitized entity name and the format's extension, then
dispatches on entity kind and format tag to one of the four export-options
constructors, or shows a message box and returns for unsupported
combinations. -/
def export_entity (entity : Entity) (folder export_format : String) : ExportAction :=
  let filename := sanitize_filename entity.name ++ "." ++ get_file_extension export_format
  let filepath := path_join folder filename
  match entity with
  | .comp c =>
    if export_format = "STEP" then ExportAction.execute (ExportOptions.step filepath c)
    else if export_format = "IGES" then ExportAction.execute (ExportOptions.iges filepath c)
    else if export_format = "SAT" then ExportAction.execute (ExportOptions.sat filepath c)
    else if export_format = "STL" then ExportAction.execute (ExportOptions.stl c.bRepBodies filepath)
    else ExportAction.message (unsupportedMsg export_format)
  | .body b =>
    if export_format = "STL" then ExportAction.execute (ExportOptions.stl [b] filepath)
    else ExportAction.message bodiesOnlySTLMsg

/-- Spec-side predicate: the combinations of entity kind and format tag the
spec calls supported (a component with one of the four format tags, a body
with STL). -/
def supported : Entity → String → Bool
  | .comp _, fmt => fmt == "STEP" || fmt == "IGES" || fmt == "SAT" || fmt == "STL"
  | .body _, fmt => fmt == "STL"

/-- Observable host events emitted by the handlers. -/
inductive HEvent where
  | folderDialog
  | progressShow (minValue maxValue : Nat)
  | setProgress (v : Nat)
  | progressHide
  | execute (o : ExportOptions)
  | msgBox (m : String)
  | setText (inputId text : String)
  | addInput (inputId : String)
  | addHandler (kind : String)
deriving DecidableEq, Repr

/-- Files written so far: each completed `exportMgr.execute` writes one
file at its options' path, and no event ever removes a file. -/
def writtenFiles (t : List HEvent) : List String :=
  t.filterMap (fun ev =>
    match ev with
    | HEvent.execute o => some (optionsPath o)
    | _ => none)

/-- Run one `export_entity` call against the host: an early-return message
box always succeeds; an `exportMgr.execute` call either raises (emitting no
event: no file is written) or succeeds and writes the file.  The second
component records whether the call raised. -/
def runAction : ExportAction → Bool → List HEvent × Bool
  | ExportAction.message m, _ => ([HEvent.msgBox m], false)
  | ExportAction.execute o, raises =>
      if raises then ([], true) else ([HEvent.execute o], false)

/-- The events a fault-free `export_entity` call emits. -/
def actionEvents (a : ExportAction) : List HEvent :=
  (runAction a false).1

/-- The export loop of `CommandExecuteHandler.notify`, lines 143-145:
`for i, item in enumerate(visible_items): export_entity(...);
progress.progressValue = i + 1`.  `failsAt i` says whether the execute call
of the item at index `i` raises; a raise propagates out of the loop at
once, skipping all later items and the progress update of the failing
iteration. -/
def export_loop (failsAt : Nat → Bool) (folder fmt : String) :
    Nat → List Entity → List HEvent × Bool
  | _, [] => ([], false)
  | i, item :: rest =>
    match runAction (export_entity item folder fmt) (failsAt i) with
    | (evs, true) => (evs, true)
    | (evs, false) =>
      let r := export_loop failsAt folder fmt (i + 1) rest
      (evs ++ HEvent.setProgress (i + 1) :: r.1, r.2)

/-- The try/except wrapper shared by all three callbacks: an exception in
the body is caught and reported through `ui.messageBox` with the given
failure text; nothing ever propagates to the host event loop. -/
def handle (failMsg : String) (body : List HEvent × Bool) : List HEvent × Bool :=
  if body.2 then (body.1 ++ [HEvent.msgBox failMsg], false) else (body.1, false)

/-- The failure text of line 103 (`traceback` payload elided). -/
def createdFailMsg : String := "Failed in CommandCreatedHandler"

/-- The failure text of line 119 (`traceback` payload elided). -/
def inputChangedFailMsg : String := "Failed in InputChangedHandler"

/-- The failure text of line 151 (`traceback` payload elided). -/
def execFailMsg : String := "Failed in CommandExecuteHandler"

/-- The success message of line 148, with the f-string expanded. -/
def successMsg (n : Nat) : String :=
  "Exported " ++ toString n ++ " files successfully."

/-- The host calls of the body of `CommandCreatedHandler.notify`,
lines 78-100, in program order: two checkboxes, the format dropdown and its
four list items, the read-only counter, and the two handler
registrations. -/
def commandCreated_calls : List HEvent :=
  [HEvent.addInput "exportComponents", HEvent.addInput "exportBodies",
   HEvent.addInput "fileFormat",
   HEvent.setText "fileFormat" "STEP", HEvent.setText "fileFormat" "STL",
   HEvent.setText "fileFormat" "IGES", HEvent.setText "fileFormat" "SAT",
   HEvent.addInput "fileCount",
   HEvent.addHandler "inputChanged", HEvent.addHandler "execute"]

/-- The body of `CommandCreatedHandler.notify` under fault injection:
`failAt = some k` means the `k`-th host call raises, so only the calls
before it happen; `failAt = none` means the body completes. -/
def commandCreated_body (failAt : Option Nat) : List HEvent × Bool :=
  match failAt with
  | none => (commandCreated_calls, false)
  | some k => (commandCreated_calls.take k, true)

/-- Callback `CommandCreatedHandler.notify`, lines 76-103: the body wrapped in the
catch-all of lines 102-103. -/
def commandCreated_notify (failAt : Option Nat) : List HEvent × Bool :=
  handle createdFailMsg (commandCreated_body failAt)

/-- The command inputs as `itemById` hands them back inside the two later
handlers: `none` models `itemById` returning `None`, in which case the
attribute access on the result raises. -/
structure CmdInputs where
  exportComponents : Option Bool
  exportBodies : Option Bool
  fileFormat : Option String
  fileCount : Option String
deriving DecidableEq, Repr

/-- The body of `InputChangedHandler.notify`, lines 110-117: read the two
checkboxes and the counter box (raising if any lookup returned `None`),
recount the visible items, and write the count into the text box. -/
def inputChanged_body (inputs : CmdInputs) (root : RootComp) : List HEvent × Bool :=
  match inputs.exportComponents with
  | none => ([], true)
  | some export_components =>
    match inputs.exportBodies with
    | none => ([], true)
    | some export_bodies =>
      match inputs.fileCount with
      | none => ([], true)
      | some _ =>
        let visible_items := get_visible_entities root export_components export_bodies
        ([HEvent.setText "fileCount" (toString visible_items.length)], false)

/-- Callback `InputChangedHandler.notify`, lines 108-119: the body wrapped in the
catch-all of lines 118-119. -/
def inputChanged_notify (inputs : CmdInputs) (root : RootComp) : List HEvent × Bool :=
  handle inputChangedFailMsg (inputChanged_body inputs root)

/-- The inputs of `CommandExecuteHandler.notify` (lines 130-132; the three
widgets exist, having been added by `CommandCreatedHandler`). -/
structure ExecInputs where
  root : RootComp
  exportComponents : Bool
  exportBodies : Bool
  fileFormat : String
deriving Repr

/-- The body of `CommandExecuteHandler.notify`, lines 126-148: collect the
visible items, show the folder dialog (`folderResult` is its result; the
empty string is the falsy cancel result and causes an immediate return),
show the progress dialog, run the export loop, then hide the progress
dialog and report success.  A raise inside the loop propagates out of the
body with the events emitted up to that point. -/
def commandExecute_body (inp : ExecInputs) (folderResult : String)
    (failsAt : Nat → Bool) : List HEvent × Bool :=
  let visible_items :=
    get_visible_entities inp.root inp.exportComponents inp.exportBodies
  if folderResult = "" then ([HEvent.folderDialog], false)
  else
    match export_loop failsAt folderResult inp.fileFormat 0 visible_items with
    | (evs, true) =>
      (HEvent.folderDialog :: HEvent.progressShow 0 visible_items.length :: evs, true)
    | (evs, false) =>
      (HEvent.folderDialog :: HEvent.progressShow 0 visible_items.length :: evs
        ++ [HEvent.progressHide, HEvent.msgBox (successMsg visible_items.length)], false)

/-- Callback `CommandExecuteHandler.notify`, lines 124-151: the body wrapped in the
catch-all of lines 150-151. -/
def commandExecute_notify (inp : ExecInputs) (folderResult : String)
    (failsAt : Nat → Bool) : List HEvent × Bool :=
  handle execFailMsg (commandExecute_body inp folderResult failsAt)

/-! ## Concrete sample data (used to instantiate the theorems) -/

/-- A visible body. -/
def sampleBody : BRepBody := ⟨"Body1", true⟩

/-- A hidden body. -/
def sampleHiddenBody : BRepBody := ⟨"Body2", false⟩

/-- A visible component owning one visible body. -/
def sampleComp1 : Component := ⟨"Comp1", true, [sampleBody]⟩

/-- A second visible component with no bodies. -/
def sampleComp2 : Component := ⟨"Comp2", true, []⟩

/-- A hidden component owning one hidden body. -/
def sampleHiddenComp : Component := ⟨"Comp3", false, [sampleHiddenBody]⟩

/-- A root with two visible components and one hidden one. -/
def sampleRoot : RootComp := ⟨[sampleComp1, sampleComp2, sampleHiddenComp]⟩

/-- Execute-handler inputs: export the components of `sampleRoot` as STEP. -/
def sampleExecInputs : ExecInputs := ⟨sampleRoot, true, false, "STEP"⟩

/-- Command inputs whose lookups all fail (`itemById` returned `None`). -/
def badCmdInputs : CmdInputs := ⟨none, none, none, none⟩

/-- Command inputs whose lookups all succeed. -/
def goodCmdInputs : CmdInputs := ⟨some true, some false, some "STEP", some "0"⟩

/-- Fault oracle: the execute call of loop index 1 raises. -/
def failSecond : Nat → Bool := fun j => j == 1

/-- Fault oracle: every execute call raises. -/
def failAll : Nat → Bool := fun _ => true

/-- Fault oracle: no execute call raises. -/
def noFail : Nat → Bool := fun _ => false

/-! ## Helper lemmas -/

theorem foldl_comp_append (l : List Component) :
    ∀ init : List Entity,
      l.foldl (fun acc comp => if comp.isVisible then acc ++ [Entity.comp comp] else acc) init
        = init ++ (l.filter (fun c => c.isVisible)).map Entity.comp := by
  induction l with
  | nil => intro init; simp
  | cons c t ih =>
    intro init
    cases hc : c.isVisible <;>
      simp [List.filter_cons, hc, ih]

theorem foldl_body_append (l : List BRepBody) :
    ∀ init : List Entity,
      l.foldl (fun acc2 body => if body.isVisible then acc2 ++ [Entity.body body] else acc2) init
        = init ++ (l.filter (fun b => b.isVisible)).map Entity.body := by
  induction l with
  | nil => intro init; simp
  | cons b t ih =>
    intro init
    cases hb : b.isVisible <;>
      simp [List.filter_cons, hb, ih]

theorem foldl_comp_bodies_append (l : List Component) :
    ∀ init : List Entity,
      l.foldl
        (fun acc comp =>
          comp.bRepBodies.foldl
            (fun acc2 body => if body.isVisible then acc2 ++ [Entity.body body] else acc2)
            acc) init
        = init ++ l.flatMap (fun comp =>
            (comp.bRepBodies.filter (fun b => b.isVisible)).map Entity.body) := by
  induction l with
  | nil => intro init; simp
  | cons c t ih =>
    intro init
    simp only [List.foldl_cons]
    rw [foldl_body_append, ih]
    simp [List.append_assoc]

theorem dropWhile_head_not {α : Type} (p : α → Bool) (l : List α) :
    ((l.dropWhile p).head?).all (fun a => !p a) = true := by
  induction l with
  | nil => rfl
  | cons a t ih =>
    by_cases ha : p a = true
    · simpa [List.dropWhile_cons, ha] using ih
    · simp [List.dropWhile_cons, Bool.eq_false_iff.mpr ha, ha]

theorem dropWhile_dropWhile {α : Type} (p : α → Bool) (l : List α) :
    (l.dropWhile p).dropWhile p = l.dropWhile p := by
  induction l with
  | nil => rfl
  | cons a t ih =>
    by_cases ha : p a = true
    · simpa [List.dropWhile_cons, ha] using ih
    · simp [List.dropWhile_cons, Bool.eq_false_iff.mpr ha, ha]

theorem pyRstrip_sublist (l : List Char) : (pyRstrip l).Sublist l := by
  have h := (List.dropWhile_sublist pyIsSpace (l := l.reverse)).reverse
  simpa [pyRstrip] using h

theorem pyRstrip_split (l : List Char) :
    ∃ ws, l = pyRstrip l ++ ws ∧ ws.all pyIsSpace = true := by
  refine ⟨(l.reverse.takeWhile pyIsSpace).reverse, ?_, ?_⟩
  · have h : l.reverse = l.reverse.takeWhile pyIsSpace ++ l.reverse.dropWhile pyIsSpace :=
      (List.takeWhile_append_dropWhile (p := pyIsSpace) (l := l.reverse)).symm
    have h2 : l.reverse.reverse
        = (l.reverse.takeWhile pyIsSpace ++ l.reverse.dropWhile pyIsSpace).reverse := by
      rw [← h]
    rw [List.reverse_reverse, List.reverse_append] at h2
    simpa only [pyRstrip] using h2
  · simp only [List.all_eq_true, List.mem_reverse]
    intro a ha
    exact List.mem_takeWhile_imp ha

theorem pyRstrip_getLast (l : List Char) :
    ((pyRstrip l).getLast?).all (fun c => !pyIsSpace c) = true := by
  have h := dropWhile_head_not pyIsSpace l.reverse
  simpa [pyRstrip, List.getLast?_reverse] using h

theorem pyRstrip_idem (l : List Char) : pyRstrip (pyRstrip l) = pyRstrip l := by
  simp [pyRstrip, dropWhile_dropWhile]

theorem sanitize_filename_data (name : String) :
    (sanitize_filename name).data = pyRstrip (name.data.filter allowedChar) := rfl

/-! ## Claim theorems -/

/-- C3: for every root component and every pair of booleans,
`get_visible_entities` returns exactly the visible components (when
`export_components` is set) followed by the visible bodies (when
`export_bodies` is set), and the empty list when both booleans are
false. -/
theorem get_visible_entities_spec (root_comp : RootComp)
    (export_components export_bodies : Bool) :
    (get_visible_entities root_comp export_components export_bodies =
      (if export_components then
        (root_comp.allComponents.filter (fun c => c.isVisible)).map Entity.comp
      else [])
      ++ (if export_bodies then
        root_comp.allComponents.flatMap (fun comp =>
          (comp.bRepBodies.filter (fun b => b.isVisible)).map Entity.body)
      else []))
    ∧ get_visible_entities root_comp false false = [] := by
  constructor
  · cases export_components <;> cases export_bodies <;>
      simp [get_visible_entities, foldl_comp_append, foldl_comp_bodies_append]
  · rfl

/-- C4: `sanitize_filename` returns the subsequence of its input consisting
of the allow-listed characters (order preserved: it is exactly the filtered
input with some trailing whitespace removed), and the result never ends in
whitespace. -/
theorem sanitize_filename_spec (name : String) :
    (sanitize_filename name).data.Sublist name.data
    ∧ (sanitize_filename name).data.all allowedChar = true
    ∧ (∃ ws, name.data.filter allowedChar = (sanitize_filename name).data ++ ws
        ∧ ws.all pyIsSpace = true)
    ∧ ((sanitize_filename name).data.getLast?).all (fun c => !pyIsSpace c) = true := by
  simp only [sanitize_filename_data]
  refine ⟨(pyRstrip_sublist _).trans (List.filter_sublist _), ?_,
    pyRstrip_split _, pyRstrip_getLast _⟩
  rw [List.all_eq_true]
  intro c hc
  exact (List.mem_filter.mp ((pyRstrip_sublist _).subset hc)).2

/-- C9: `sanitize_filename` is idempotent. -/
theorem sanitize_filename_idem (name : String) :
    sanitize_filename (sanitize_filename name) = sanitize_filename name := by
  have hall : ∀ c ∈ (sanitize_filename name).data, allowedChar c = true := by
    rw [sanitize_filename_data]
    intro c hc
    exact (List.mem_filter.mp ((pyRstrip_sublist _).subset hc)).2
  show String.mk (pyRstrip ((sanitize_filename name).data.filter allowedChar))
    = sanitize_filename name
  rw [List.filter_eq_self.mpr hall, sanitize_filename_data, pyRstrip_idem]
  rfl

/-- C10: if the folder-selection dialog returns the empty (falsy) result,
`CommandExecuteHandler.notify` returns immediately: its trace holds only
the dialog itself — no export, no progress dialog, no completion message
box — and no exception propagates. -/
theorem commandExecute_cancel (inp : ExecInputs) (failsAt : Nat → Bool) :
    commandExecute_notify inp "" failsAt = ([HEvent.folderDialog], false) := rfl

/-- C1: for every entity and format tag, `export_entity` dispatches a
supported combination (a component with one of the four format tags, a
body with STL) to exactly one of the four export-options constructors —
the one matching the format tag — and asks the export manager to execute
it; every unsupported combination yields a message box and an early return
with no execute call. -/
theorem export_entity_dispatch (entity : Entity) (folder fmt : String) :
    (supported entity fmt = true →
      ∃ o, export_entity entity folder fmt = ExportAction.execute o ∧ optionsKind o = fmt)
    ∧ (supported entity fmt = false →
      ∃ m, export_entity entity folder fmt = ExportAction.message m) := by
  cases entity with
  | comp c =>
    constructor
    · intro h
      simp only [supported, Bool.or_eq_true, beq_iff_eq] at h
      rcases h with (((h | h) | h) | h) <;> subst h <;> exact ⟨_, rfl, rfl⟩
    · intro h
      simp only [supported, Bool.or_eq_false_iff, beq_eq_false_iff_ne, ne_eq] at h
      obtain ⟨⟨⟨h1, h2⟩, h3⟩, h4⟩ := h
      refine ⟨unsupportedMsg fmt, ?_⟩
      simp only [export_entity]
      rw [if_neg h1, if_neg h2, if_neg h3, if_neg h4]
  | body b =>
    constructor
    · intro h
      simp only [supported, beq_iff_eq] at h
      subst h
      exact ⟨_, rfl, rfl⟩
    · intro h
      simp only [supported, beq_eq_false_iff_ne, ne_eq] at h
      refine ⟨bodiesOnlySTLMsg, ?_⟩
      simp only [export_entity]
      rw [if_neg h]

/-- Witness for C1: a component exports as STEP through an execute call; a
body with format STEP gets a message box instead. -/
theorem export_entity_dispatch_witness :
    (∃ o, export_entity (Entity.comp sampleComp1) "out" "STEP" = ExportAction.execute o
      ∧ optionsKind o = "STEP")
    ∧ (∃ m, export_entity (Entity.body sampleBody) "out" "STEP" = ExportAction.message m) :=
  ⟨(export_entity_dispatch (Entity.comp sampleComp1) "out" "STEP").1 rfl,
   (export_entity_dispatch (Entity.body sampleBody) "out" "STEP").2 rfl⟩

set_option maxHeartbeats 1000000 in
/-- C8: the format-to-extension table maps STEP to step, STL to stl, IGES
to igs, SAT to sat and everything else to stp, and for every supported
export the file path handed to the options constructor is the chosen
folder joined with the sanitized entity name plus a dot plus that
extension. -/
theorem export_path_spec (entity : Entity) (folder fmt : String) :
    get_file_extension "STEP" = "step"
    ∧ get_file_extension "STL" = "stl"
    ∧ get_file_extension "IGES" = "igs"
    ∧ get_file_extension "SAT" = "sat"
    ∧ (fmt ≠ "STEP" → fmt ≠ "STL" → fmt ≠ "IGES" → fmt ≠ "SAT" →
        get_file_extension fmt = "stp")
    ∧ (supported entity fmt = true →
        ∃ o, export_entity entity folder fmt = ExportAction.execute o
          ∧ optionsPath o
              = path_join folder
                  (sanitize_filename entity.name ++ "." ++ get_file_extension fmt)) := by
  refine ⟨rfl, rfl, rfl, rfl, ?_, ?_⟩
  · intro h1 h2 h3 h4
    simp only [get_file_extension]
    rw [if_neg h1, if_neg h2, if_neg h3, if_neg h4]
  · intro h
    cases entity with
    | comp c =>
      simp only [supported, Bool.or_eq_true, beq_iff_eq] at h
      rcases h with (((h | h) | h) | h) <;> subst h <;> exact ⟨_, rfl, rfl⟩
    | body b =>
      simp only [supported, beq_iff_eq] at h
      subst h
      exact ⟨_, rfl, rfl⟩

/-- Witness for C8: an unlisted format tag falls back to the stp
extension, and a STEP export of a sample component is handed the joined
path. -/
theorem export_path_spec_witness :
    get_file_extension "3MF" = "stp"
    ∧ (∃ o, export_entity (Entity.comp sampleComp1) "out" "STEP" = ExportAction.execute o
        ∧ optionsPath o
            = path_join "out"
                (sanitize_filename (Entity.comp sampleComp1).name ++ "." ++ get_file_extension "STEP")) :=
  ⟨(export_path_spec (Entity.comp sampleComp1) "out" "3MF").2.2.2.2.1
      (by decide) (by decide) (by decide) (by decide),
   (export_path_spec (Entity.comp sampleComp1) "out" "STEP").2.2.2.2.2 rfl⟩

theorem handle_no_propagation (failMsg : String) (body : List HEvent × Bool) :
    (handle failMsg body).2 = false := by
  simp only [handle]
  split <;> rfl

theorem handle_fail_trace (failMsg : String) (body : List HEvent × Bool)
    (h : body.2 = true) :
    (handle failMsg body).1 = body.1 ++ [HEvent.msgBox failMsg] := by
  simp [handle, h]

/-- C5: none of the three callbacks ever propagates an exception to its
caller, and whenever the callback body raises, the trace is the body's
events followed by the message box reporting the failure. -/
theorem callbacks_no_propagation (failAt : Option Nat) (inputs : CmdInputs)
    (root : RootComp) (inp : ExecInputs) (folder : String) (failsAt : Nat → Bool) :
    (commandCreated_notify failAt).2 = false
    ∧ (inputChanged_notify inputs root).2 = false
    ∧ (commandExecute_notify inp folder failsAt).2 = false
    ∧ ((commandCreated_body failAt).2 = true →
        (commandCreated_notify failAt).1
          = (commandCreated_body failAt).1 ++ [HEvent.msgBox createdFailMsg])
    ∧ ((inputChanged_body inputs root).2 = true →
        (inputChanged_notify inputs root).1
          = (inputChanged_body inputs root).1 ++ [HEvent.msgBox inputChangedFailMsg])
    ∧ ((commandExecute_body inp folder failsAt).2 = true →
        (commandExecute_notify inp folder failsAt).1
          = (commandExecute_body inp folder failsAt).1 ++ [HEvent.msgBox execFailMsg]) :=
  ⟨handle_no_propagation _ _, handle_no_propagation _ _, handle_no_propagation _ _,
   fun h => handle_fail_trace _ _ h, fun h => handle_fail_trace _ _ h,
   fun h => handle_fail_trace _ _ h⟩

/-- Witness for C5: with a raising host call injected into each callback,
every callback still returns without propagating and ends its trace with
the failure message box. -/
theorem callbacks_no_propagation_witness :
    (commandCreated_notify (some 0)).2 = false
    ∧ (commandCreated_notify (some 0)).1
        = (commandCreated_body (some 0)).1 ++ [HEvent.msgBox createdFailMsg]
    ∧ (inputChanged_notify badCmdInputs sampleRoot).1
        = (inputChanged_body badCmdInputs sampleRoot).1 ++ [HEvent.msgBox inputChangedFailMsg]
    ∧ (commandExecute_notify sampleExecInputs "out" failAll).1
        = (commandExecute_body sampleExecInputs "out" failAll).1 ++ [HEvent.msgBox execFailMsg] := by
  have h := callbacks_no_propagation (some 0) badCmdInputs sampleRoot sampleExecInputs "out" failAll
  exact ⟨h.1, h.2.2.2.1 rfl, h.2.2.2.2.1 rfl, h.2.2.2.2.2 rfl⟩

/-- C6: whenever the input-changed callback's widget lookups succeed, the
read-only file-count text box is set to the decimal string of the length
of the `get_visible_entities` result for the current checkbox values. -/
theorem inputChanged_count (inputs : CmdInputs) (root : RootComp)
    (export_components export_bodies : Bool) (s : String)
    (hec : inputs.exportComponents = some export_components)
    (heb : inputs.exportBodies = some export_bodies)
    (hfc : inputs.fileCount = some s) :
    inputChanged_notify inputs root
      = ([HEvent.setText "fileCount"
            (toString (get_visible_entities root export_components export_bodies).length)],
        false) := by
  simp [inputChanged_notify, inputChanged_body, hec, heb, hfc, handle]

/-- Witness for C6: on the sample root with components checked and bodies
unchecked, the count box is set to the visible-item count. -/
theorem inputChanged_count_witness :
    inputChanged_notify goodCmdInputs sampleRoot
      = ([HEvent.setText "fileCount"
            (toString (get_visible_entities sampleRoot true false).length)], false) :=
  inputChanged_count goodCmdInputs sampleRoot true false "0" rfl rfl rfl

/-- C7: a fault-free run of the export loop handles the items strictly one
at a time in list order; each item's export events are immediately
followed by the progress update to `i + 1` for the item at index `i`, so
after every iteration the progress value is the number of items processed
so far. -/
theorem export_loop_progress (folder fmt : String) (items : List Entity) :
    ∀ n : Nat, export_loop noFail folder fmt n items
      = ((items.enumFrom n).flatMap
          (fun p => actionEvents (export_entity p.2 folder fmt)
            ++ [HEvent.setProgress (p.1 + 1)]),
        false) := by
  induction items with
  | nil => intro n; rfl
  | cons item rest ih =>
    intro n
    cases ha : export_entity item folder fmt with
    | execute o => simp [export_loop, runAction, actionEvents, ha, ih, noFail]
    | message m => simp [export_loop, runAction, actionEvents, ha, ih, noFail]

theorem export_loop_fail (folder fmt : String) (failsAt : Nat → Bool) :
    ∀ (items : List Entity) (n i : Nat) (hi : i < items.length),
      (∀ j, j < i → failsAt (n + j) = false) →
      failsAt (n + i) = true →
      (∃ o, export_entity (items.get ⟨i, hi⟩) folder fmt = ExportAction.execute o) →
      export_loop failsAt folder fmt n items
        = ((export_loop noFail folder fmt n (items.take i)).1, true) := by
  intro items
  induction items with
  | nil =>
    intro n i hi
    simp at hi
  | cons item rest ih =>
    intro n i hi hbefore hfail hexec
    cases i with
    | zero =>
      obtain ⟨o, ho⟩ := hexec
      have ho' : export_entity item folder fmt = ExportAction.execute o := ho
      have hf : failsAt n = true := by simpa using hfail
      simp [export_loop, ho', hf, runAction]
    | succ k =>
      have hf0 : failsAt n = false := by
        have h0 := hbefore 0 (Nat.succ_pos k)
        simpa using h0
      have hb' : ∀ j, j < k → failsAt (n + 1 + j) = false := by
        intro j hj
        have h := hbefore (j + 1) (by omega)
        have e : n + (j + 1) = n + 1 + j := by omega
        rwa [e] at h
      have hf' : failsAt (n + 1 + k) = true := by
        have e : n + (k + 1) = n + 1 + k := by omega
        rwa [e] at hfail
      have hk : k < rest.length := by
        simpa using Nat.lt_of_succ_lt_succ hi
      have hexec' : ∃ o, export_entity (rest.get ⟨k, hk⟩) folder fmt
          = ExportAction.execute o := hexec
      have ihr := ih (n + 1) k hk hb' hf' hexec'
      cases ha : export_entity item folder fmt with
      | execute o => simp [export_loop, ha, hf0, runAction, ihr, noFail]
      | message m => simp [export_loop, ha, hf0, runAction, ihr, noFail]

/-- C2: if the export of the visible item at index `i` raises (all earlier
ones succeeding), then `CommandExecuteHandler.notify` emits exactly the
dialog, the progress-dialog opening, the events of the items before `i`,
and the failure message box: no item after `i` is exported, and the files
written before `i` are exactly the files written at the end — nothing is
cleaned up. -/
theorem commandExecute_abort (inp : ExecInputs) (folder : String)
    (failsAt : Nat → Bool) (i : Nat)
    (hfolder : folder ≠ "")
    (hi : i < (get_visible_entities inp.root inp.exportComponents inp.exportBodies).length)
    (hbefore : ∀ j, j < i → failsAt j = false)
    (hfail : failsAt i = true)
    (hexec : ∃ o, export_entity
        ((get_visible_entities inp.root inp.exportComponents inp.exportBodies).get ⟨i, hi⟩)
        folder inp.fileFormat = ExportAction.execute o) :
    (commandExecute_notify inp folder failsAt).1
      = HEvent.folderDialog
        :: HEvent.progressShow 0
            (get_visible_entities inp.root inp.exportComponents inp.exportBodies).length
        :: ((export_loop noFail folder inp.fileFormat 0
              ((get_visible_entities inp.root inp.exportComponents inp.exportBodies).take i)).1
            ++ [HEvent.msgBox execFailMsg])
    ∧ writtenFiles (commandExecute_notify inp folder failsAt).1
        = writtenFiles (export_loop noFail folder inp.fileFormat 0
            ((get_visible_entities inp.root inp.exportComponents inp.exportBodies).take i)).1 := by
  have hb0 : ∀ j, j < i → failsAt (0 + j) = false := by
    intro j hj
    simpa using hbefore j hj
  have hf0 : failsAt (0 + i) = true := by simpa using hfail
  have hloop := export_loop_fail folder inp.fileFormat failsAt
    (get_visible_entities inp.root inp.exportComponents inp.exportBodies) 0 i hi hb0 hf0 hexec
  have hbody : commandExecute_body inp folder failsAt
      = (HEvent.folderDialog
          :: HEvent.progressShow 0
              (get_visible_entities inp.root inp.exportComponents inp.exportBodies).length
          :: (export_loop noFail folder inp.fileFormat 0
              ((get_visible_entities inp.root inp.exportComponents inp.exportBodies).take i)).1,
        true) := by
    simp only [commandExecute_body]
    rw [if_neg hfolder, hloop]
  have h1 : (commandExecute_notify inp folder failsAt).1
      = HEvent.folderDialog
        :: HEvent.progressShow 0
            (get_visible_entities inp.root inp.exportComponents inp.exportBodies).length
        :: ((export_loop noFail folder inp.fileFormat 0
              ((get_visible_entities inp.root inp.exportComponents inp.exportBodies).take i)).1
            ++ [HEvent.msgBox execFailMsg]) := by
    rw [commandExecute_notify, handle_fail_trace _ _ (by rw [hbody])]
    rw [hbody]
    simp
  refine ⟨h1, ?_⟩
  rw [h1]
  simp [writtenFiles, List.filterMap_append]

/-- Witness for C2: on the sample root with two visible components, STEP
format and a raise at loop index 1, the handler's trace is the prefix
events plus the failure box, and the files written are those of the first
item only. -/
theorem commandExecute_abort_witness :
    (commandExecute_notify sampleExecInputs "out" failSecond).1
      = HEvent.folderDialog
        :: HEvent.progressShow 0
            (get_visible_entities sampleExecInputs.root sampleExecInputs.exportComponents
              sampleExecInputs.exportBodies).length
        :: ((export_loop noFail "out" sampleExecInputs.fileFormat 0
              ((get_visible_entities sampleExecInputs.root sampleExecInputs.exportComponents
                sampleExecInputs.exportBodies).take 1)).1
            ++ [HEvent.msgBox execFailMsg])
    ∧ writtenFiles (commandExecute_notify sampleExecInputs "out" failSecond).1
        = writtenFiles (export_loop noFail "out" sampleExecInputs.fileFormat 0
            ((get_visible_entities sampleExecInputs.root sampleExecInputs.exportComponents
              sampleExecInputs.exportBodies).take 1)).1 := by
  refine commandExecute_abort sampleExecInputs "out" failSecond 1 (by decide) (by decide)
    ?_ rfl ⟨_, rfl⟩
  intro j hj
  have hj0 : j = 0 := by omega
  subst hj0
  rfl
